import Mathlib

/-!
Verification development for the Telegram todo bot (`src/bot.py`).

The core logic of the bot — text classification, task ordering with display
numbers, conditional completion, digest rendering, and the midnight window
arithmetic — is embedded shallowly below.  Modelling decisions, each noted at
the definition it concerns:

* The task store (SQLite table `tasks`) is modelled as a `List Task` in
  insertion (rowid) order; `AUTOINCREMENT` ids are `max id + 1`.
* Timestamps (`created_at`, `done_at`, `now()`) are stored by the bot as
  ISO-8601 strings in the single fixed timezone and compared either as strings
  (Python tuple sort) or chronologically (SQLite `datetime(...)`, timedelta
  arithmetic).  They are modelled as `Int` microseconds on the local timescale;
  for timestamps produced in one fixed zone the stored string order and the
  chronological order coincide on all inputs the claims concern.
* Python's `sorted` is a stable sort; any stable sort computes the same list,
  so it is embedded as `List.insertionSort` (also stable).
* SQLite `datetime(...)` comparisons truncate to whole seconds; the window
  bounds used by the bot are second-aligned midnights, for which truncation is
  transparent, so the range check is modelled directly on microseconds.
-/

namespace TodoBot

/-- One row of the `tasks` table (`CREATE_TABLE_SQL` in `src/bot.py`).
The Python column `section` is named `sectionName` here because `section` is a
Lean keyword; `text` is the task body. -/
structure Task where
  id : Nat
  chat_id : Int
  sectionName : String
  text : String
  created_at : Int
  done : Bool
  done_at : Option Int
deriving DecidableEq, Repr

/-- `SECTION_ORDER = ["דחוף", "היום", "מחר", "כללי"]`
(Urgent, Today, Tomorrow, General). -/
def SECTION_ORDER : List String := ["דחוף", "היום", "מחר", "כללי"]

/-- `SECTION_PRIORITY.get(section, 999)`: the fixed rank of each section
keyword, `999` for anything else. -/
def sectionPriority (s : String) : Nat :=
  if s = "דחוף" then 0
  else if s = "היום" then 1
  else if s = "מחר" then 2
  else if s = "כללי" then 3
  else 999

/-- Microseconds per day (the local timescale granularity of Python
`datetime`). -/
def usPerDay : Int := 86400000000

-- ---------------- Parsing ----------------

/-- Python `s.strip()` on a character list: whitespace dropped from both
ends.  (Lean's `Char.isWhitespace` covers space, tab, CR, LF; Python also
strips some rarer Unicode whitespace, immaterial to the claims here.) -/
def stripChars (cs : List Char) : List Char :=
  ((cs.dropWhile Char.isWhitespace).reverse.dropWhile Char.isWhitespace).reverse

/-- Python `s.strip()`. -/
def strip (s : String) : String := String.mk (stripChars s.data)

/-- Worker for `tokens`: accumulates the current word (reversed) while
scanning. -/
def splitWsAux (cur : List Char) : List Char → List (List Char)
  | [] => if cur = [] then [] else [cur.reverse]
  | c :: cs =>
    if c.isWhitespace then
      if cur = [] then splitWsAux [] cs
      else cur.reverse :: splitWsAux [] cs
    else splitWsAux (c :: cur) cs

/-- Python `text.split()`: maximal whitespace-free runs, i.e.
whitespace-delimited tokens with empty pieces dropped. -/
def tokens (s : String) : List String :=
  (splitWsAux [] s.data).map String.mk

/-- `normalize_text`: `re.sub(r"\s+", " ", s.strip())`, i.e. trim and collapse
whitespace runs — equivalently, the whitespace tokens joined by single
spaces. -/
def normalize_text (s : String) : String :=
  String.intercalate " " (tokens s)

/-- `parse_section_from_text` (src/bot.py lines 88–108).  The last token, if it
is a section keyword, names the section and is stripped from the body;
otherwise the section is General (`"כללי"`) and the whole trimmed text is the
body.  `words[-1].strip()` is the identity (split tokens contain no
whitespace) and is omitted.  The `none` arm of `getLast?` is unreachable for
nonempty trimmed text (Python indexes `words[-1]` directly). -/
def parse_section_from_text (raw : String) : String × String :=
  let text := strip raw
  if text = "" then ("כללי", "")
  else
    match (tokens text).getLast? with
    | none => ("כללי", "")
    | some last =>
      if last ∈ SECTION_ORDER then
        let task_text := strip (String.intercalate " " (tokens text).dropLast)
        if task_text = "" then (last, "")
        else (last, task_text)
      else ("כללי", text)

/-- `is_list_command`: exact match against the four list-request phrases. -/
def is_list_command (text : String) : Bool :=
  text == "רשימה" || text == "הצג רשימה" || text == "תראה רשימה" || text == "תציג רשימה"

/-- Value of a decimal digit string, as Python `int` computes it. -/
def digitsToNat (ds : List Char) : Nat :=
  ds.foldl (fun n c => 10 * n + (c.toNat - 48)) 0

/-- The `\s+(\d+)\s*$` part of the completion regex: at least one whitespace
character, then the captured digit run, then optional trailing whitespace.
(Python `$` also matches just before a final newline, which for `\s*$` accepts
exactly the all-whitespace tails accepted here.  Python `\d` additionally
matches non-ASCII decimal digits, immaterial to the claims.) -/
def restMatch (cs : List Char) : Option Nat :=
  let ws1 := cs.takeWhile Char.isWhitespace
  let r1 := cs.dropWhile Char.isWhitespace
  if ws1 = [] then none
  else
    let ds := r1.takeWhile Char.isDigit
    let r2 := r1.dropWhile Char.isDigit
    if ds = [] then none
    else if r2.all Char.isWhitespace then some (digitsToNat ds) else none

/-- One alternative of the verb alternation: the literal verb as a required
leading segment, then `restMatch` on the remainder. -/
def tryVerb (v : List Char) (cs : List Char) : Option Nat :=
  if cs.take v.length = v then restMatch (cs.drop v.length) else none

/-- `parse_done_command`: `re.match(r"^(סיים|סיימתי)\s+(\d+)\s*$", text)`,
returning `int(group(2))`.  The regex alternation tries `סיים` first; the two
verbs differ at their fourth character (final mem against regular mem), so at
most one alternative can match a given input. -/
def parse_done_command (text : String) : Option Nat :=
  match tryVerb "סיים".toList text.toList with
  | some n => some n
  | none => tryVerb "סיימתי".toList text.toList

-- ---------------- Tasks ops ----------------

/-- SQLite `AUTOINCREMENT`: the new rowid exceeds every existing id. -/
def next_id (db : List Task) : Nat :=
  (db.map Task.id).foldr Nat.max 0 + 1

/-- `add_task`: INSERT with `done = 0` and `done_at` absent (NULL). -/
def add_task (db : List Task) (chat : Int) (sec : String) (text : String)
    (created : Int) : List Task :=
  db ++ [{ id := next_id db, chat_id := chat, sectionName := sec,
           text := strip text, created_at := created,
           done := false, done_at := none }]

/-- `get_open_tasks`: `SELECT ... WHERE chat_id=? AND done=0` (no ORDER BY;
rows are modelled in table order — the claims prove the downstream order does
not depend on this). -/
def get_open_tasks (db : List Task) (chat : Int) : List Task :=
  db.filter (fun t => t.chat_id == chat && !t.done)

/-- The sort key of `ordered_open_tasks_with_numbers`:
`(SECTION_PRIORITY.get(section, 999), created_at, id)`. -/
def taskKey (t : Task) : Nat × Int × Nat :=
  (sectionPriority t.sectionName, t.created_at, t.id)

/-- Lexicographic `≤` on sort keys, as Python compares the key tuples. -/
def taskLe (a b : Task) : Prop :=
  (taskKey a).1 < (taskKey b).1 ∨
    ((taskKey a).1 = (taskKey b).1 ∧
      ((taskKey a).2.1 < (taskKey b).2.1 ∨
        ((taskKey a).2.1 = (taskKey b).2.1 ∧ (taskKey a).2.2 ≤ (taskKey b).2.2)))

/-- Strict version of `taskLe` (used to reason about distinct keys). -/
def taskLt (a b : Task) : Prop :=
  (taskKey a).1 < (taskKey b).1 ∨
    ((taskKey a).1 = (taskKey b).1 ∧
      ((taskKey a).2.1 < (taskKey b).2.1 ∨
        ((taskKey a).2.1 = (taskKey b).2.1 ∧ (taskKey a).2.2 < (taskKey b).2.2)))

instance : DecidableRel taskLe := fun a b => by unfold taskLe; infer_instance

instance : DecidableRel taskLt := fun a b => by unfold taskLt; infer_instance

instance : IsTotal Task taskLe := ⟨by intro a b; unfold taskLe; omega⟩

instance : IsTrans Task taskLe := ⟨by intro a b c; unfold taskLe; omega⟩

/-- Display numbering `enumerate(rows_sorted, start=1)`. -/
def number_from (i : Nat) : List Task → List (Nat × Task)
  | [] => []
  | t :: ts => (i, t) :: number_from (i + 1) ts

/-- `rows_sorted = sorted(rows, key=key)`: the open rows sorted by
`(section priority, created_at, id)`.  Python `sorted` is stable; any stable
sort yields the same list, so it is embedded as insertion sort. -/
def sorted_open_tasks (db : List Task) (chat : Int) : List Task :=
  List.insertionSort taskLe (get_open_tasks db chat)

/-- `ordered_open_tasks_with_numbers`: the sorted open rows numbered 1..N. -/
def ordered_open_tasks_with_numbers (db : List Task) (chat : Int) :
    List (Nat × Task) :=
  number_from 1 (sorted_open_tasks db chat)

/-- The WHERE clause of the conditional completion UPDATE:
`chat_id=? AND id=? AND done=0`. -/
def completeMatches (chat : Int) (task_id : Nat) (r : Task) : Bool :=
  r.chat_id == chat && r.id == task_id && !r.done

/-- The UPDATE of `mark_done_by_display_number`:
`UPDATE tasks SET done=1, done_at=? WHERE chat_id=? AND id=? AND done=0`,
returning (`rowcount > 0`, new table state). -/
def complete_update (db : List Task) (chat : Int) (task_id : Nat) (t : Int) :
    Bool × List Task :=
  (0 < db.countP (fun r => completeMatches chat task_id r),
   db.map (fun r =>
     if completeMatches chat task_id r then
       { r with done := true, done_at := some t }
     else r))

/-- `mark_done_by_display_number`: resolve the display number in the freshly
computed order, then run the conditional UPDATE. -/
def mark_done_by_display_number (db : List Task) (chat : Int)
    (display_no : Nat) (t : Int) : Bool × List Task :=
  match (ordered_open_tasks_with_numbers db chat).find?
      (fun x => x.1 == display_no) with
  | none => (false, db)
  | some x => complete_update db chat x.2.id t

/-- `is_older_than_week`: `now() - created_at >= timedelta(days=7)`. -/
def is_older_than_week (created_at : Int) (now : Int) : Bool :=
  decide (7 * usPerDay ≤ now - created_at)

/-- `doneLe`: ascending `done_at` (SQL `ORDER BY datetime(done_at) ASC`);
on the rows it is applied to `done_at` is always present. -/
def doneLe (a b : Task) : Prop :=
  a.done_at.getD 0 ≤ b.done_at.getD 0

instance : DecidableRel doneLe := fun a b => by unfold doneLe; infer_instance

instance : IsTotal Task doneLe := ⟨by intro a b; unfold doneLe; omega⟩

instance : IsTrans Task doneLe := ⟨by intro a b c; unfold doneLe; omega⟩

/-- The WHERE clause of `get_tasks_done_in_range`: completed in the half-open
window.  SQLite `datetime(...)` truncates to whole seconds; the bot's window
bounds are second-aligned midnights, for which the truncated comparison agrees
with the direct one modelled here. -/
def doneInRange (chat : Int) (s e : Int) (t : Task) : Bool :=
  t.chat_id == chat && t.done &&
    (match t.done_at with
     | none => false
     | some d => decide (s ≤ d) && decide (d < e))

/-- `get_tasks_done_in_range`: matching rows ordered by ascending
`done_at`. -/
def get_tasks_done_in_range (db : List Task) (chat : Int) (s e : Int) :
    List Task :=
  List.insertionSort doneLe (db.filter (doneInRange chat s e))

-- ---------------- Formatting ----------------

/-- `html.escape(s)` on one character (quote=True: `&`, `<`, `>`, `"`, `'`).
Python escapes `&` first precisely so that the per-character reading is
exact.  `Char.ofNat 34` is the double quote, `Char.ofNat 39` the
apostrophe. -/
def escapeChar (c : Char) : String :=
  if c = '&' then "&amp;"
  else if c = '<' then "&lt;"
  else if c = '>' then "&gt;"
  else if c = Char.ofNat 34 then "&quot;"
  else if c = Char.ofNat 39 then "&#x27;"
  else String.singleton c

/-- `html.escape(s)` with its default `quote=True`. -/
def escapeHtml (s : String) : String :=
  String.join (s.toList.map escapeChar)

/-- `header(title)`. -/
def header (title : String) : String :=
  "━━━━━━━━━━━━━━━━━━━━\n<b>" ++ escapeHtml title ++ "</b>\n━━━━━━━━━━━━━━━━━━━━"

/-- `section_title(name)`: the decorated bar for the four known sections,
`lines.get(name, name)` falling back to the bare name. -/
def section_title (name : String) : String :=
  let bars :=
    if name = "דחוף" then "━━━━━━━━━ דחוף ━━━━━━━━━"
    else if name = "היום" then "━━━━━━━━━ היום ━━━━━━━━━"
    else if name = "מחר" then "━━━━━━━━━ מחר ━━━━━━━━━"
    else if name = "כללי" then "━━━━━━━━━ כללי ━━━━━━━━━"
    else name
  "\n<b>" ++ bars ++ "</b>"

/-- One rendered open task:
`f"{red}<b>{display_no}</b> — {html.escape(text)}"` with the aging marker. -/
def fmtItem (now : Int) (x : Nat × Task) : String :=
  (if is_older_than_week x.2.created_at now then "🔴 " else "") ++
    "<b>" ++ toString x.1 ++ "</b> — " ++ escapeHtml x.2.text

/-- One iteration of the grouping loop:
`groups.setdefault(section, []).append(item)`.  The Python dict (pre-seeded
with the four section keys mapped to `[]`) is modelled as a total function
from section name to item list, initially constantly `[]`. -/
def groupStep (now : Int) (g : String → List String) (x : Nat × Task) :
    String → List String :=
  fun s => if s = x.2.sectionName then g s ++ [fmtItem now x] else g s

/-- The grouping loop of `format_open_tasks_message`. -/
def buildGroups (now : Int) (numbered : List (Nat × Task)) :
    String → List String :=
  numbered.foldl (groupStep now) (fun _ => [])

/-- The per-section body lines: bullets for each member, or the placeholder
`• (אין)` for an empty section. -/
def bulletLines (items : List String) : List String :=
  if items = [] then ["• (אין)"] else items.map (fun it => "• " ++ it)

/-- The fixed reply when there are no open tasks. -/
def noOpenTasksMsg : String := "✅ <b>אין משימות פתוחות כרגע.</b>"

/-- `format_open_tasks_message` (src/bot.py lines 228–251). -/
def format_open_tasks_message (db : List Task) (chat : Int) (now : Int) :
    String :=
  let numbered := ordered_open_tasks_with_numbers db chat
  if numbered = [] then noOpenTasksMsg
  else
    let groups := buildGroups now numbered
    String.intercalate "\n"
      (header "🧾 רשימת משימות פתוחות" ::
        SECTION_ORDER.flatMap (fun sec =>
          section_title sec :: bulletLines (groups sec)))

/-- Spec-side view of one section's members (§4.4: the section's member tasks
from the Ordering Engine's grouping, in engine order, each with its display
number and aging marker): the numbered sequence filtered to the section. -/
def sectionMembers (now : Int) (numbered : List (Nat × Task)) (sec : String) :
    List String :=
  (numbered.filter (fun x => x.2.sectionName == sec)).map (fmtItem now)

/-- Renderer written from the spec's words (§4.4, Open-list digest): fixed
message when nothing is open; otherwise, for each of the four sections in
fixed order, a section header followed by that section's members, with a
placeholder line for empty sections. -/
def format_open_tasks_message_spec (db : List Task) (chat : Int) (now : Int) :
    String :=
  let numbered := ordered_open_tasks_with_numbers db chat
  if numbered = [] then noOpenTasksMsg
  else
    String.intercalate "\n"
      (header "🧾 רשימת משימות פתוחות" ::
        SECTION_ORDER.flatMap (fun sec =>
          section_title sec :: bulletLines (sectionMembers now numbered sec)))

-- ---------------- Calendar / summary ----------------

/-- Gregorian civil date `(year, month, day)` from a day count relative to
1970-01-01 (the standard civil-from-days algorithm; all divisions below are on
nonnegative operands, where Lean's `Int` division is exact floor
division). -/
def civilFromDays (z0 : Int) : Int × Int × Int :=
  let z := z0 + 719468
  let era := (if 0 ≤ z then z else z - 146096) / 146097
  let doe := z - era * 146097
  let yoe := (doe - doe / 1460 + doe / 36524 - doe / 146096) / 365
  let y := yoe + era * 400
  let doy := doe - (365 * yoe + yoe / 4 - yoe / 100)
  let mp := (5 * doy + 2) / 153
  let d := doy - (153 * mp + 2) / 5 + 1
  let m := mp + (if mp < 10 then 3 else -9)
  (y + (if m ≤ 2 then 1 else 0), m, d)

/-- Two-digit zero padding as in `strftime("%d/%m/%Y")`. -/
def pad2 (n : Int) : String :=
  if n < 10 then "0" ++ toString n else toString n

/-- `start.strftime("%d/%m/%Y")` for a local-timescale microsecond
timestamp. -/
def day_label (us : Int) : String :=
  let days := (us - us % usPerDay) / usPerDay
  match civilFromDays days with
  | (y, m, d) => pad2 d ++ "/" ++ pad2 m ++ "/" ++ toString y

/-- The count line for a positive count:
`f"\n🔥 <b>סיימת היום {count} משימות</b>\n"`. -/
def countLine (n : Nat) : String :=
  "\n🔥 <b>סיימת היום " ++ toString n ++ " משימות</b>\n"

/-- The distinct zero-count line: `"\n😅 <b>סיימת היום 0 משימות יא אפס</b>\n"`. -/
def zeroCountLine : String :=
  "\n😅 <b>סיימת היום 0 משימות יא אפס</b>\n"

/-- `format_done_summary_for_range` (src/bot.py lines 253–275). -/
def format_done_summary_for_range (db : List Task) (chat : Int) (s e : Int) :
    String :=
  let rows := get_tasks_done_in_range db chat s e
  let lines := [header ("📅 סיכום משימות — " ++ day_label s),
                if rows.length > 0 then countLine rows.length else zeroCountLine]
  if rows.length = 0 then String.intercalate "\n" lines
  else
    String.intercalate "\n"
      (lines ++ rows.map (fun r => "• " ++ escapeHtml r.text))

-- ---------------- Scheduling ----------------

/-- The window computation of `send_midnight_done_summary`:
`ref = now() - timedelta(seconds=1)`;
`day_start = ref.replace(hour=0, minute=0, second=0, microsecond=0)`;
`day_end = day_start + timedelta(days=1)`.  On the linear local timescale the
midnight truncation is the floor to a multiple of `usPerDay` (`%` on `Int` is
the nonnegative Euclidean remainder). -/
def midnight_window (now_us : Int) : Int × Int :=
  let ref := now_us - 1000000
  let day_start := ref - ref % usPerDay
  (day_start, day_start + usPerDay)

-- ---------------- Message handler ----------------

/-- The reply `on_text` chooses (the textual payloads the bot sends are
carried where the claims need them). -/
inductive Reply where
  | listing (msg : String)
  | doneResult (ok : Bool)
  | usage
  | added (sec : String)
deriving DecidableEq, Repr

/-- The data-model invariant of §3: `done_at` is non-null iff `done` is
true. -/
def done_inv (t : Task) : Prop := t.done_at ≠ none ↔ t.done = true

instance (t : Task) : Decidable (done_inv t) := by unfold done_inv; infer_instance

/-- `on_text` (src/bot.py lines 354–380): normalize, then classify as list
command / completion command / new task, with the empty-body usage prompt.
Returns the reply and the new store state. -/
def on_text (db : List Task) (chat : Int) (raw : String) (now : Int) :
    Reply × List Task :=
  let text := normalize_text raw
  if is_list_command text then
    (Reply.listing (format_open_tasks_message db chat now), db)
  else
    match parse_done_command text with
    | some n =>
      let r := mark_done_by_display_number db chat n now
      (Reply.doneResult r.1, r.2)
    | none =>
      let p := parse_section_from_text text
      if p.2 = "" then (Reply.usage, db)
      else (Reply.added p.1, add_task db chat p.1 p.2 now)

-- ---------------- Concrete fixtures (used by witness theorems) ----------------

/-- Fixture: an open General task. -/
def wT1 : Task := ⟨1, 7, "כללי", "לקנות חלב", 100, false, none⟩

/-- Fixture: an open Urgent task. -/
def wT2 : Task := ⟨2, 7, "דחוף", "להתקשר לבנק", 200, false, none⟩

/-- Fixture: an open Today task sharing `created_at` with `wT2`. -/
def wT3 : Task := ⟨3, 7, "היום", "לשלם שכירות", 200, false, none⟩

/-- Fixture: an open task whose stored section is not one of the four
keywords. -/
def wT4 : Task := ⟨4, 7, "שטויות", "משהו", 50, false, none⟩

/-- Fixture: a completed task. -/
def wT5 : Task := ⟨5, 7, "כללי", "בוצע", 10, true, some 500⟩

/-- Fixture store holding the five tasks above. -/
def wDb : List Task := [wT1, wT2, wT3, wT4, wT5]

-- ==================== Theorems ====================

-- ---------------- Helper lemmas ----------------

theorem number_from_map_fst (i : Nat) (l : List Task) :
    (number_from i l).map Prod.fst = List.range' i l.length := by
  induction l generalizing i with
  | nil => simp [number_from]
  | cons t ts ih => simp [number_from, List.range'_succ, ih]

theorem number_from_map_snd (i : Nat) (l : List Task) :
    (number_from i l).map Prod.snd = l := by
  induction l generalizing i with
  | nil => simp [number_from]
  | cons t ts ih => simp [number_from, ih]

theorem mem_number_from {i k : Nat} {t : Task} {l : List Task} :
    (k, t) ∈ number_from i l ↔
      ∃ j, ∃ hj : j < l.length, k = i + j ∧ l[j] = t := by
  induction l generalizing i with
  | nil => simp [number_from]
  | cons a ts ih =>
    constructor
    · intro h
      rcases List.mem_cons.mp h with h | h
      · obtain ⟨hk, ht⟩ := Prod.mk.injEq .. ▸ h
        exact ⟨0, by simp, by omega, by simpa using ht.symm⟩
      · obtain ⟨j, hj, hk, hget⟩ := ih.mp h
        exact ⟨j + 1, by simpa using hj, by omega, by simpa using hget⟩
    · rintro ⟨j, hj, hk, hget⟩
      cases j with
      | zero =>
        simp only [List.getElem_cons_zero] at hget
        simp [number_from, hk, hget]
      | succ j =>
        simp only [List.getElem_cons_succ] at hget
        exact List.mem_cons.mpr (Or.inr (ih.mpr ⟨j, by simpa using hj, by omega, hget⟩))

theorem sectionPriority_unrecognized {s : String} (h : s ∉ SECTION_ORDER) :
    sectionPriority s = 999 := by
  simp only [SECTION_ORDER, List.mem_cons, List.mem_singleton, not_or] at h
  obtain ⟨h1, h2, h3, h4⟩ := h
  simp [sectionPriority, h1, h2, h3, h4]

/-- With pairwise-distinct ids, the non-strict key order pairwise on a list
strengthens to the strict one. -/
theorem pairwise_taskLt_of_sorted {l : List Task}
    (hs : List.Pairwise taskLe l) (hnd : (l.map Task.id).Nodup) :
    List.Pairwise taskLt l := by
  have hne : List.Pairwise (fun a b : Task => a.id ≠ b.id) l :=
    (List.pairwise_map.mp hnd)
  exact (hs.and hne).imp (by
    intro a b hab
    obtain ⟨hle, hne⟩ := hab
    unfold taskLe at hle
    unfold taskLt
    simp only [taskKey] at *
    omega)

theorem sorted_sorted_open_tasks (db : List Task) (chat : Int) :
    List.Sorted taskLe (sorted_open_tasks db chat) :=
  List.sorted_insertionSort taskLe (get_open_tasks db chat)

theorem perm_sorted_open_tasks (db : List Task) (chat : Int) :
    (sorted_open_tasks db chat).Perm (get_open_tasks db chat) :=
  List.perm_insertionSort taskLe (get_open_tasks db chat)

/-- C1's determinism core: two stores whose open-task multisets for the
conversation agree produce the same sorted sequence, provided ids are
pairwise distinct. -/
theorem sorted_open_tasks_eq_of_perm {db db2 : List Task} {chat : Int}
    (hperm : (get_open_tasks db chat).Perm (get_open_tasks db2 chat))
    (hnd : ((get_open_tasks db chat).map Task.id).Nodup) :
    sorted_open_tasks db chat = sorted_open_tasks db2 chat := by
  have hnd2 : ((get_open_tasks db2 chat).map Task.id).Nodup :=
    (hperm.map Task.id).nodup_iff.mp hnd
  have hp : (sorted_open_tasks db chat).Perm (sorted_open_tasks db2 chat) :=
    ((perm_sorted_open_tasks db chat).trans hperm).trans
      (perm_sorted_open_tasks db2 chat).symm
  have h1 : List.Pairwise taskLt (sorted_open_tasks db chat) :=
    pairwise_taskLt_of_sorted (sorted_sorted_open_tasks db chat)
      (((perm_sorted_open_tasks db chat).map Task.id).nodup_iff.mpr hnd)
  have h2 : List.Pairwise taskLt (sorted_open_tasks db2 chat) :=
    pairwise_taskLt_of_sorted (sorted_sorted_open_tasks db2 chat)
      (((perm_sorted_open_tasks db2 chat).map Task.id).nodup_iff.mpr hnd2)
  haveI : IsAntisymm Task taskLt :=
    ⟨by intro a b hab hba; exfalso; unfold taskLt at hab hba; omega⟩
  exact List.eq_of_perm_of_sorted hp h1 h2

-- ---------------- C1 ----------------

/-- C1: the ordered open-task sequence used for listing and completion is
sorted by the key (section priority, created_at ascending, id ascending),
with the fixed ranks Urgent=0, Today=1, Tomorrow=2, General=3 and any
unrecognized section ranking after every recognized one; two open tasks with
equal section and equal creation timestamp are ordered by ascending storage
id; and the order is deterministic for a fixed open-task set (any two reads
of the same open rows, in whatever order the store returns them, sort to the
same sequence). -/
theorem C1_ordering_engine (db db2 : List Task) (chat : Int) (s : String)
    (hs : s ∉ SECTION_ORDER)
    (hnd : ((get_open_tasks db chat).map Task.id).Nodup)
    (hperm : (get_open_tasks db chat).Perm (get_open_tasks db2 chat)) :
    (sectionPriority "דחוף" = 0 ∧ sectionPriority "היום" = 1 ∧
      sectionPriority "מחר" = 2 ∧ sectionPriority "כללי" = 3) ∧
    (∀ s2 ∈ SECTION_ORDER, sectionPriority s2 < sectionPriority s) ∧
    List.Sorted taskLe
      ((ordered_open_tasks_with_numbers db chat).map Prod.snd) ∧
    List.Pairwise
      (fun a b : Task => a.sectionName = b.sectionName →
        a.created_at = b.created_at → a.id < b.id)
      ((ordered_open_tasks_with_numbers db chat).map Prod.snd) ∧
    ordered_open_tasks_with_numbers db chat =
      ordered_open_tasks_with_numbers db2 chat := by
  have hsnd : (ordered_open_tasks_with_numbers db chat).map Prod.snd =
      sorted_open_tasks db chat :=
    number_from_map_snd 1 (sorted_open_tasks db chat)
  refine ⟨⟨rfl, rfl, rfl, rfl⟩, ?_, ?_, ?_, ?_⟩
  · intro s2 hs2
    rw [sectionPriority_unrecognized hs]
    simp only [SECTION_ORDER, List.mem_cons, List.not_mem_nil, or_false] at hs2
    rcases hs2 with rfl | rfl | rfl | rfl <;> decide
  · rw [hsnd]; exact sorted_sorted_open_tasks db chat
  · rw [hsnd]
    have hlt : List.Pairwise taskLt (sorted_open_tasks db chat) :=
      pairwise_taskLt_of_sorted (sorted_sorted_open_tasks db chat)
        (((perm_sorted_open_tasks db chat).map Task.id).nodup_iff.mpr hnd)
    exact hlt.imp (by
      intro a b hab hsec hca
      unfold taskLt at hab
      simp only [taskKey, hsec, hca] at hab
      omega)
  · unfold ordered_open_tasks_with_numbers
    rw [sorted_open_tasks_eq_of_perm hperm hnd]

/-- Witness for C1 at a concrete store. -/
theorem C1_ordering_engine_witness :
    (sectionPriority "דחוף" = 0 ∧ sectionPriority "היום" = 1 ∧
      sectionPriority "מחר" = 2 ∧ sectionPriority "כללי" = 3) ∧
    (∀ s2 ∈ SECTION_ORDER, sectionPriority s2 < sectionPriority "שטויות") ∧
    List.Sorted taskLe
      ((ordered_open_tasks_with_numbers wDb 7).map Prod.snd) ∧
    List.Pairwise
      (fun a b : Task => a.sectionName = b.sectionName →
        a.created_at = b.created_at → a.id < b.id)
      ((ordered_open_tasks_with_numbers wDb 7).map Prod.snd) ∧
    ordered_open_tasks_with_numbers wDb 7 =
      ordered_open_tasks_with_numbers wDb 7 :=
  C1_ordering_engine wDb wDb 7 "שטויות" (by decide) (by decide)
    (List.Perm.refl _)

-- ---------------- C2 ----------------

/-- C2: display numbers over the sorted sequence are exactly 1..N — the
`range'` characterization gives contiguity with no gaps and no duplicates —
they are recomputed from the fetched open rows alone (any store state with
the same open rows yields the identical order and numbering), and nothing is
persisted: the store is not an input of the numbering beyond the fetched
rows. -/
theorem C2_display_numbers (db db2 : List Task) (chat : Int) (n : Nat)
    (hsame : get_open_tasks db2 chat = get_open_tasks db chat) :
    (ordered_open_tasks_with_numbers db chat).map Prod.fst =
      List.range' 1 (get_open_tasks db chat).length ∧
    ((ordered_open_tasks_with_numbers db chat).map Prod.fst).Nodup ∧
    (n ∈ (ordered_open_tasks_with_numbers db chat).map Prod.fst ↔
      1 ≤ n ∧ n ≤ (get_open_tasks db chat).length) ∧
    ordered_open_tasks_with_numbers db2 chat =
      ordered_open_tasks_with_numbers db chat := by
  have hlen : (sorted_open_tasks db chat).length =
      (get_open_tasks db chat).length :=
    (perm_sorted_open_tasks db chat).length_eq
  have hfst : (ordered_open_tasks_with_numbers db chat).map Prod.fst =
      List.range' 1 (get_open_tasks db chat).length := by
    rw [ordered_open_tasks_with_numbers, number_from_map_fst, hlen]
  refine ⟨hfst, ?_, ?_, ?_⟩
  · rw [hfst]; exact List.nodup_range' _ _
  · rw [hfst, List.mem_range'_1]; omega
  · unfold ordered_open_tasks_with_numbers sorted_open_tasks
    rw [hsame]

/-- Witness for C2 at a concrete store. -/
theorem C2_display_numbers_witness :
    (ordered_open_tasks_with_numbers wDb 7).map Prod.fst =
      List.range' 1 (get_open_tasks wDb 7).length ∧
    ((ordered_open_tasks_with_numbers wDb 7).map Prod.fst).Nodup ∧
    (2 ∈ (ordered_open_tasks_with_numbers wDb 7).map Prod.fst ↔
      1 ≤ 2 ∧ 2 ≤ (get_open_tasks wDb 7).length) ∧
    ordered_open_tasks_with_numbers wDb 7 =
      ordered_open_tasks_with_numbers wDb 7 :=
  C2_display_numbers wDb wDb 7 2 rfl

-- ---------------- C3 ----------------

theorem map_self_of_eq {l : List Task} {f : Task → Task}
    (h : ∀ x ∈ l, f x = x) : l.map f = l := by
  induction l with
  | nil => rfl
  | cons a t ih =>
    rw [List.map_cons, h a (List.mem_cons_self a t),
      ih (fun x hx => h x (List.mem_cons_of_mem a hx))]

/-- A conditional completion against a store that holds no open row with the
given identity reports failure and leaves every row unchanged. -/
theorem complete_update_no_open {db : List Task} {chat : Int} {task_id : Nat}
    {tm : Int}
    (h : ∀ t ∈ db, t.chat_id = chat → t.id = task_id → t.done = true) :
    complete_update db chat task_id tm = (false, db) := by
  have hmatch : ∀ t ∈ db, completeMatches chat task_id t = false := by
    intro t ht
    unfold completeMatches
    by_cases h1 : t.chat_id = chat
    · by_cases h2 : t.id = task_id
      · simp [h1, h2, h t ht h1 h2]
      · simp [h2]
    · simp [h1]
  unfold complete_update
  have hcount : db.countP (fun r => completeMatches chat task_id r) = 0 :=
    List.countP_eq_zero.mpr (by intro a ha; simp [hmatch a ha])
  rw [hcount]
  have hmap : db.map (fun r =>
      if completeMatches chat task_id r then
        { r with done := true, done_at := some tm }
      else r) = db :=
    map_self_of_eq (fun x hx => by rw [hmatch x hx]; simp)
  rw [hmap]
  simp

/-- After a conditional completion, the store holds no open row with that
identity. -/
theorem complete_update_closes {db : List Task} {chat : Int} {task_id : Nat}
    {tm : Int} :
    ∀ t ∈ (complete_update db chat task_id tm).2,
      t.chat_id = chat → t.id = task_id → t.done = true := by
  intro t ht h1 h2
  unfold complete_update at ht
  simp only [List.mem_map] at ht
  obtain ⟨x, hx, hfx⟩ := ht
  by_cases hm : completeMatches chat task_id x = true
  · rw [if_pos hm] at hfx; rw [← hfx]
  · rw [if_neg hm] at hfx
    subst hfx
    unfold completeMatches at hm
    simp [h1, h2] at hm
    exact hm

/-- C3: completion by display number fails without state change in both
failure modes and never errors (it is a total function).  A display number
outside [1, N] resolves to nothing and returns the store untouched; a
conditional update whose target is no longer open affects zero rows and
returns false with the store untouched; and after a completion of a resolved
id, a second completion of the same id reports failure and changes
nothing. -/
theorem C3_completion_failure (db : List Task) (chat : Int) (tm tm2 : Int)
    (n : Nat) (hn : n < 1 ∨ (get_open_tasks db chat).length < n)
    (bid : Nat)
    (hb : ∀ t ∈ db, t.chat_id = chat → t.id = bid → t.done = true)
    (cid : Nat)
    (hc : (complete_update db chat cid tm).1 = true) :
    mark_done_by_display_number db chat n tm = (false, db) ∧
    complete_update db chat bid tm = (false, db) ∧
    complete_update (complete_update db chat cid tm).2 chat cid tm2 =
      (false, (complete_update db chat cid tm).2) := by
  refine ⟨?_, complete_update_no_open hb, ?_⟩
  · have hfind : (ordered_open_tasks_with_numbers db chat).find?
        (fun x => x.1 == n) = none := by
      apply List.find?_eq_none.mpr
      intro x hx
      have hx1 : x.1 ∈ (ordered_open_tasks_with_numbers db chat).map Prod.fst :=
        List.mem_map.mpr ⟨x, hx, rfl⟩
      rw [ordered_open_tasks_with_numbers, number_from_map_fst,
        (perm_sorted_open_tasks db chat).length_eq, List.mem_range'_1] at hx1
      simp only [beq_iff_eq]
      omega
    unfold mark_done_by_display_number
    rw [hfind]
  · exact complete_update_no_open (fun t ht => complete_update_closes t ht)

/-- Witness for C3 at a concrete store: display number 9 is out of range,
task id 5 is already completed, and completing id 1 twice succeeds only
once. -/
theorem C3_completion_failure_witness :
    mark_done_by_display_number wDb 7 9 900 = (false, wDb) ∧
    complete_update wDb 7 5 900 = (false, wDb) ∧
    complete_update (complete_update wDb 7 1 900).2 7 1 901 =
      (false, (complete_update wDb 7 1 900).2) :=
  C3_completion_failure wDb 7 900 901 9 (by decide) 5 (by decide) 1 (by decide)

-- ---------------- C9 ----------------

/-- The conditional completion preserves the `done_at`/`done` invariant. -/
theorem complete_update_inv {db : List Task} {chat : Int} {task_id : Nat}
    {tm : Int} (hinv : ∀ t ∈ db, done_inv t) :
    ∀ t ∈ (complete_update db chat task_id tm).2, done_inv t := by
  intro t ht
  unfold complete_update at ht
  simp only [List.mem_map] at ht
  obtain ⟨x, hx, hfx⟩ := ht
  by_cases hm : completeMatches chat task_id x = true
  · rw [if_pos hm] at hfx; rw [← hfx]; simp [done_inv]
  · rw [if_neg hm] at hfx; rw [← hfx]; exact hinv x hx

/-- C9: `done_at` is non-null iff `done` is true, and the core operations
preserve this: insertion appends a row with `done = false` and
`done_at = NULL`, and the completion UPDATE sets `done = 1` and a non-null
`done_at` in the same row write (for a matching open row, its updated image —
done true, done_at set — is in the new store). -/
theorem C9_done_invariant (db : List Task) (chat : Int) (sec body : String)
    (created tm : Int) (task_id n : Nat) (r0 : Task)
    (hinv : ∀ t ∈ db, done_inv t) (hr0 : r0 ∈ db)
    (hr1 : r0.chat_id = chat) (hr2 : r0.id = task_id)
    (hr3 : r0.done = false) :
    (∀ t ∈ add_task db chat sec body created, done_inv t) ∧
    (∃ t, add_task db chat sec body created = db ++ [t] ∧
      t.done = false ∧ t.done_at = none) ∧
    (∀ t ∈ (complete_update db chat task_id tm).2, done_inv t) ∧
    (∀ t ∈ (mark_done_by_display_number db chat n tm).2, done_inv t) ∧
    { r0 with done := true, done_at := some tm } ∈
      (complete_update db chat task_id tm).2 := by
  refine ⟨?_, ⟨_, rfl, rfl, rfl⟩, complete_update_inv hinv, ?_, ?_⟩
  · intro t ht
    unfold add_task at ht
    rcases List.mem_append.mp ht with h | h
    · exact hinv t h
    · simp only [List.mem_singleton] at h
      rw [h]; simp [done_inv]
  · unfold mark_done_by_display_number
    cases hf : (ordered_open_tasks_with_numbers db chat).find?
        (fun x => x.1 == n) with
    | none => exact hinv
    | some x => exact complete_update_inv hinv
  · unfold complete_update
    apply List.mem_map.mpr
    refine ⟨r0, hr0, ?_⟩
    rw [if_pos (by unfold completeMatches; simp [hr1, hr2, hr3])]

/-- Witness for C9 at a concrete store and row. -/
theorem C9_done_invariant_witness :
    (∀ t ∈ add_task wDb 7 "כללי" "משימה" 900, done_inv t) ∧
    (∃ t, add_task wDb 7 "כללי" "משימה" 900 = wDb ++ [t] ∧
      t.done = false ∧ t.done_at = none) ∧
    (∀ t ∈ (complete_update wDb 7 1 900).2, done_inv t) ∧
    (∀ t ∈ (mark_done_by_display_number wDb 7 2 900).2, done_inv t) ∧
    { wT1 with done := true, done_at := some 900 } ∈
      (complete_update wDb 7 1 900).2 :=
  C9_done_invariant wDb 7 "כללי" "משימה" 900 900 1 2 wT1 (by decide)
    (by decide) (by decide) (by decide) (by decide)

-- ---------------- C4 ----------------

/-- C4: for a firing instant at local midnight of day `D` or fractionally
(sub-second) after it, the midnight job's window is exactly
[yesterday 00:00:00, today 00:00:00): reference = now − 1s, start = the
reference truncated to local midnight, end = start + 24h. -/
theorem C4_midnight_window (D ε : Int) (h0 : 0 ≤ ε) (h1 : ε < 1000000) :
    midnight_window (D * usPerDay + ε) = ((D - 1) * usPerDay, D * usPerDay) := by
  simp only [midnight_window, usPerDay, Prod.mk.injEq]
  constructor <;> omega

/-- Witness for C4: firing exactly at midnight of day 20000 (and, for the
window shape, 0 ≤ 0 < 1s). -/
theorem C4_midnight_window_witness :
    midnight_window (20000 * usPerDay + 0) =
      ((20000 - 1) * usPerDay, 20000 * usPerDay) :=
  C4_midnight_window 20000 0 (by decide) (by decide)

-- ---------------- C5 ----------------

/-- C5: on a normalized input classified as a new task, the final
whitespace-delimited token selects the section and is stripped from the body
when it is one of the four keywords, else the section is General and the full
text is the body; an input that is just a section keyword leaves an empty
body; and an empty body makes `on_text` reply with the usage prompt and
store nothing. -/
theorem C5_new_task_classification (s s0 : String) (db : List Task)
    (chat : Int) (tm : Int) (last : String)
    (hnorm : normalize_text s = s) (htrim : strip s = s) (hne : s ≠ "")
    (hlast : (tokens s).getLast? = some last)
    (h0norm : normalize_text s0 = s0)
    (h0list : is_list_command s0 = false)
    (h0done : parse_done_command s0 = none)
    (h0body : (parse_section_from_text s0).2 = "") :
    parse_section_from_text s =
      (if last ∈ SECTION_ORDER then
        (last, strip (String.intercalate " " (tokens s).dropLast))
       else ("כללי", s)) ∧
    (tokens s = [last] → last ∈ SECTION_ORDER →
      (parse_section_from_text s).2 = "") ∧
    on_text db chat s0 tm = (Reply.usage, db) := by
  have hparse : parse_section_from_text s =
      (if last ∈ SECTION_ORDER then
        (last, strip (String.intercalate " " (tokens s).dropLast))
       else ("כללי", s)) := by
    by_cases hmem : last ∈ SECTION_ORDER
    · by_cases hempty :
          strip (String.intercalate " " (tokens s).dropLast) = ""
      · simp [parse_section_from_text, htrim, hne, hlast, hmem, hempty]
      · simp [parse_section_from_text, htrim, hne, hlast, hmem, hempty]
    · simp [parse_section_from_text, htrim, hne, hlast, hmem]
  refine ⟨hparse, ?_, ?_⟩
  · intro hsingle hmem
    rw [hparse, if_pos hmem, hsingle]
    rfl
  · simp [on_text, h0norm, h0list, h0done, h0body]

/-- Witness for C5: the single-keyword input `דחוף` (kept, body emptied) and
the single-keyword input `מחר` routed by `on_text` to the usage prompt. -/
theorem C5_new_task_classification_witness :
    parse_section_from_text "דחוף" =
      (if "דחוף" ∈ SECTION_ORDER then
        ("דחוף", strip (String.intercalate " " (tokens "דחוף").dropLast))
       else ("כללי", "דחוף")) ∧
    (tokens "דחוף" = ["דחוף"] → "דחוף" ∈ SECTION_ORDER →
      (parse_section_from_text "דחוף").2 = "") ∧
    on_text wDb 7 "מחר" 900 = (Reply.usage, wDb) :=
  C5_new_task_classification "דחוף" "מחר" wDb 7 900 "דחוף" (by decide)
    (by decide) (by decide) (by decide) (by decide) (by decide) (by decide)
    (by decide)

-- ---------------- C7 / C10 shared rendering lemmas ----------------

theorem foldl_groupStep (now : Int) (l : List (Nat × Task))
    (g : String → List String) (sec : String) :
    (l.foldl (groupStep now) g) sec =
      g sec ++ (l.filter (fun x => x.2.sectionName == sec)).map (fmtItem now) := by
  induction l generalizing g with
  | nil => simp
  | cons x t ih =>
    rw [List.foldl_cons, ih, List.filter_cons]
    by_cases h : x.2.sectionName = sec
    · rw [if_pos (by simpa using h)]
      simp [groupStep, h]
    · rw [if_neg (by simpa using h)]
      have : (groupStep now g x) sec = g sec := by
        unfold groupStep
        rw [if_neg (fun hh => h hh.symm)]
      rw [this]

theorem buildGroups_eq (now : Int) (numbered : List (Nat × Task))
    (sec : String) :
    buildGroups now numbered sec = sectionMembers now numbered sec := by
  unfold buildGroups sectionMembers
  rw [foldl_groupStep]
  simp

/-- The code renderer and the renderer written from the spec's words agree on
every store state: the dict-append grouping loop groups exactly as the spec's
per-section filtering does. -/
theorem format_open_eq_spec (db : List Task) (chat : Int) (now : Int) :
    format_open_tasks_message db chat now =
      format_open_tasks_message_spec db chat now := by
  unfold format_open_tasks_message format_open_tasks_message_spec
  simp only [buildGroups_eq]

theorem mem_ordered_of_open {db : List Task} {chat : Int} {t : Task}
    (ht : t ∈ get_open_tasks db chat) :
    ∃ k, (k, t) ∈ ordered_open_tasks_with_numbers db chat := by
  have hmem : t ∈ sorted_open_tasks db chat :=
    (perm_sorted_open_tasks db chat).mem_iff.mpr ht
  obtain ⟨j, hj, hget⟩ := List.mem_iff_getElem.mp hmem
  exact ⟨1 + j, mem_number_from.mpr ⟨j, hj, rfl, hget⟩⟩

-- ---------------- C7 ----------------

/-- C7: the open-list digest is the fixed "nothing pending" message when no
task is open; otherwise it renders, for the four sections in the fixed order
Urgent, Today, Tomorrow, General, a section header followed by the section's
members in engine order with their display numbers and aging markers, with a
placeholder line for empty sections (the refinement equality against the
spec-side renderer, whose shape is exactly that description); and an open
Urgent task appears among the Urgent group's members with its display number
and its body escaped. -/
theorem C7_open_list_digest (db db0 : List Task) (chat chat0 : Int)
    (tm : Int) (t : Task)
    (ht : t ∈ get_open_tasks db chat) (hsec : t.sectionName = "דחוף")
    (h0 : get_open_tasks db0 chat0 = []) :
    format_open_tasks_message db0 chat0 tm = noOpenTasksMsg ∧
    format_open_tasks_message db chat tm =
      format_open_tasks_message_spec db chat tm ∧
    (∃ k, (k, t) ∈ ordered_open_tasks_with_numbers db chat ∧
      ((if is_older_than_week t.created_at tm then "🔴 " else "") ++
        "<b>" ++ toString k ++ "</b> — " ++ escapeHtml t.text) ∈
        sectionMembers tm (ordered_open_tasks_with_numbers db chat) "דחוף") := by
  refine ⟨?_, format_open_eq_spec db chat tm, ?_⟩
  · unfold format_open_tasks_message ordered_open_tasks_with_numbers
      sorted_open_tasks
    rw [h0]
    rfl
  · obtain ⟨k, hk⟩ := mem_ordered_of_open ht
    refine ⟨k, hk, ?_⟩
    unfold sectionMembers
    apply List.mem_map.mpr
    refine ⟨(k, t), List.mem_filter.mpr ⟨hk, by simp [hsec]⟩, ?_⟩
    unfold fmtItem
    rfl

/-- Witness for C7: the Urgent fixture task in `wDb`, and a conversation with
no rows for the empty case. -/
theorem C7_open_list_digest_witness :
    format_open_tasks_message wDb 99 900 = noOpenTasksMsg ∧
    format_open_tasks_message wDb 7 900 =
      format_open_tasks_message_spec wDb 7 900 ∧
    (∃ k, (k, wT2) ∈ ordered_open_tasks_with_numbers wDb 7 ∧
      ((if is_older_than_week wT2.created_at 900 then "🔴 " else "") ++
        "<b>" ++ toString k ++ "</b> — " ++ escapeHtml wT2.text) ∈
        sectionMembers 900 (ordered_open_tasks_with_numbers wDb 7) "דחוף") :=
  C7_open_list_digest wDb wDb 7 99 900 wT2 (by decide) (by decide) (by decide)

-- ---------------- C8 ----------------

/-- C8: the completed-range digest over [start, end) emits a header labelled
with the window's calendar date and a literal count line; with zero
completions it uses the distinct mocking zero phrasing and emits no task
lines; with a positive count it emits exactly one bullet line per completed
task body — the section nowhere in it — in ascending completion-time
order. -/
theorem C8_done_summary (db db0 : List Task) (chat chat0 : Int)
    (s e s0 e0 : Int)
    (h0 : get_tasks_done_in_range db0 chat0 s0 e0 = [])
    (h1 : get_tasks_done_in_range db chat s e ≠ []) :
    format_done_summary_for_range db0 chat0 s0 e0 =
      String.intercalate "\n"
        [header ("📅 סיכום משימות — " ++ day_label s0), zeroCountLine] ∧
    format_done_summary_for_range db chat s e =
      String.intercalate "\n"
        ([header ("📅 סיכום משימות — " ++ day_label s),
          countLine (get_tasks_done_in_range db chat s e).length] ++
          (get_tasks_done_in_range db chat s e).map
            (fun r => "• " ++ escapeHtml r.text)) ∧
    List.Sorted doneLe (get_tasks_done_in_range db chat s e) ∧
    zeroCountLine ≠ countLine 0 := by
  refine ⟨?_, ?_, List.sorted_insertionSort doneLe _, by decide⟩
  · unfold format_done_summary_for_range
    rw [h0]
    rfl
  · have hlen : (get_tasks_done_in_range db chat s e).length ≠ 0 := by
      simpa [List.length_eq_zero] using h1
    simp only [format_done_summary_for_range]
    rw [if_pos (Nat.pos_of_ne_zero hlen), if_neg hlen]

/-- Witness for C8: `wDb` has one completion inside [0, 1000) and none inside
[600, 700). -/
theorem C8_done_summary_witness :
    format_done_summary_for_range wDb 7 600 700 =
      String.intercalate "\n"
        [header ("📅 סיכום משימות — " ++ day_label 600), zeroCountLine] ∧
    format_done_summary_for_range wDb 7 0 1000 =
      String.intercalate "\n"
        ([header ("📅 סיכום משימות — " ++ day_label 0),
          countLine (get_tasks_done_in_range wDb 7 0 1000).length] ++
          (get_tasks_done_in_range wDb 7 0 1000).map
            (fun r => "• " ++ escapeHtml r.text)) ∧
    List.Sorted doneLe (get_tasks_done_in_range wDb 7 0 1000) ∧
    zeroCountLine ≠ countLine 0 :=
  C8_done_summary wDb wDb 7 7 0 1000 600 700 (by decide) (by decide)

-- ---------------- C10 ----------------

/-- C10: an open task with an unrecognized stored section still receives a
display number, sorted after every task of a recognized section, yet the
open-list rendering omits it: it belongs to none of the four rendered
groups, its display number occurs in none of them, and the rendered message
equals the spec-side renderer that draws lines only from the four groups. -/
theorem C10_unrecognized_section (db : List Task) (chat : Int) (tm : Int)
    (t : Task) (ht : t ∈ get_open_tasks db chat)
    (hsec : t.sectionName ∉ SECTION_ORDER) :
    (∃ k, (k, t) ∈ ordered_open_tasks_with_numbers db chat ∧
      (∀ p ∈ ordered_open_tasks_with_numbers db chat,
        p.2.sectionName ∈ SECTION_ORDER → p.1 < k) ∧
      (∀ sec ∈ SECTION_ORDER,
        (k, t) ∉ (ordered_open_tasks_with_numbers db chat).filter
          (fun x => x.2.sectionName == sec)) ∧
      (∀ sec ∈ SECTION_ORDER,
        ∀ p ∈ (ordered_open_tasks_with_numbers db chat).filter
          (fun x => x.2.sectionName == sec), p.1 ≠ k)) ∧
    format_open_tasks_message db chat tm =
      format_open_tasks_message_spec db chat tm := by
  refine ⟨?_, format_open_eq_spec db chat tm⟩
  have hmem : t ∈ sorted_open_tasks db chat :=
    (perm_sorted_open_tasks db chat).mem_iff.mpr ht
  obtain ⟨j, hj, hget⟩ := List.mem_iff_getElem.mp hmem
  have hk : (1 + j, t) ∈ ordered_open_tasks_with_numbers db chat :=
    mem_number_from.mpr ⟨j, hj, rfl, hget⟩
  have hrank : ∀ s2 ∈ SECTION_ORDER, sectionPriority s2 ≤ 3 := by
    intro s2 hs2
    simp only [SECTION_ORDER, List.mem_cons, List.not_mem_nil, or_false] at hs2
    rcases hs2 with rfl | rfl | rfl | rfl <;> decide
  have hpair : List.Pairwise taskLe (sorted_open_tasks db chat) :=
    sorted_sorted_open_tasks db chat
  refine ⟨1 + j, hk, ?_, ?_, ?_⟩
  · rintro ⟨p1, p2⟩ hp hrec
    obtain ⟨j2, hj2, hkj2, hget2⟩ := mem_number_from.mp hp
    simp only
    have hj2j : j2 < j := by
      by_contra hge
      rcases Nat.lt_or_ge j j2 with hlt | hle2
      · have hle : taskLe (sorted_open_tasks db chat)[j]
            (sorted_open_tasks db chat)[j2] :=
          List.pairwise_iff_getElem.mp hpair j j2 hj hj2 hlt
        rw [hget, hget2] at hle
        have h999 : sectionPriority t.sectionName = 999 :=
          sectionPriority_unrecognized hsec
        have h3 : sectionPriority p2.sectionName ≤ 3 :=
          hrank p2.sectionName hrec
        unfold taskLe at hle
        simp only [taskKey, h999] at hle
        omega
      · have : j2 = j := by omega
        subst this
        rw [hget2.symm.trans hget] at hrec
        exact hsec hrec
    omega
  · intro sec hsecmem hfilt
    have hprop := List.mem_filter.mp hfilt
    have : t.sectionName = sec := by simpa using hprop.2
    exact hsec (this ▸ hsecmem)
  · rintro sec hsecmem ⟨p1, p2⟩ hp hpk
    have hprop := List.mem_filter.mp hp
    obtain ⟨j2, hj2, hkj2, hget2⟩ := mem_number_from.mp hprop.1
    simp only at hpk
    have : j2 = j := by omega
    subst this
    have hp2t : p2 = t := hget2.symm.trans hget
    have : p2.sectionName = sec := by simpa using hprop.2
    rw [hp2t] at this
    exact hsec (this ▸ hsecmem)

/-- Witness for C10: the fixture task with stored section `שטויות`. -/
theorem C10_unrecognized_section_witness :
    (∃ k, (k, wT4) ∈ ordered_open_tasks_with_numbers wDb 7 ∧
      (∀ p ∈ ordered_open_tasks_with_numbers wDb 7,
        p.2.sectionName ∈ SECTION_ORDER → p.1 < k) ∧
      (∀ sec ∈ SECTION_ORDER,
        (k, wT4) ∉ (ordered_open_tasks_with_numbers wDb 7).filter
          (fun x => x.2.sectionName == sec)) ∧
      (∀ sec ∈ SECTION_ORDER,
        ∀ p ∈ (ordered_open_tasks_with_numbers wDb 7).filter
          (fun x => x.2.sectionName == sec), p.1 ≠ k)) ∧
    format_open_tasks_message wDb 7 900 =
      format_open_tasks_message_spec wDb 7 900 :=
  C10_unrecognized_section wDb 7 900 wT4 (by decide) (by decide)

-- ---------------- C6 ----------------

theorem digit_not_ws {c : Char} (h : c.isDigit = true) :
    c.isWhitespace = false := by
  cases hw : c.isWhitespace
  · rfl
  · exfalso
    have hw2 := hw
    simp only [Char.isWhitespace, Bool.or_eq_true, decide_eq_true_eq] at hw2
    rcases hw2 with ((rfl | rfl) | rfl) | rfl <;> exact absurd h (by decide)

theorem ws_not_digit {c : Char} (h : c.isWhitespace = true) :
    c.isDigit = false := by
  cases hd : c.isDigit
  · rfl
  · exact absurd h (by simp [digit_not_ws hd])

theorem takeWhile_all_append {p : Char → Bool} {l₁ l₂ : List Char}
    (h : ∀ c ∈ l₁, p c = true) :
    (l₁ ++ l₂).takeWhile p = l₁ ++ l₂.takeWhile p := by
  induction l₁ with
  | nil => simp
  | cons a t ih =>
    rw [List.cons_append,
      List.takeWhile_cons_of_pos (h a (List.mem_cons_self a t)),
      ih (fun c hc => h c (List.mem_cons_of_mem a hc)), List.cons_append]

theorem dropWhile_all_append {p : Char → Bool} {l₁ l₂ : List Char}
    (h : ∀ c ∈ l₁, p c = true) :
    (l₁ ++ l₂).dropWhile p = l₂.dropWhile p := by
  induction l₁ with
  | nil => simp
  | cons a t ih =>
    rw [List.cons_append,
      List.dropWhile_cons_of_pos (h a (List.mem_cons_self a t)),
      ih (fun c hc => h c (List.mem_cons_of_mem a hc))]

theorem takeWhile_nil_of_all_neg {p : Char → Bool} {l : List Char}
    (h : ∀ c ∈ l, p c = false) : l.takeWhile p = [] := by
  cases l with
  | nil => rfl
  | cons a t =>
    exact List.takeWhile_cons_of_neg
      (by simp [h a (List.mem_cons_self a t)])

theorem dropWhile_id_of_all_neg {p : Char → Bool} {l : List Char}
    (h : ∀ c ∈ l, p c = false) : l.dropWhile p = l := by
  cases l with
  | nil => rfl
  | cons a t =>
    exact List.dropWhile_cons_of_neg
      (by simp [h a (List.mem_cons_self a t)])

/-- Characterization of the `\s+(\d+)\s*$` matcher. -/
theorem restMatch_some_iff {cs : List Char} {n : Nat} :
    restMatch cs = some n ↔
      ∃ ws1 ds ws2 : List Char, cs = ws1 ++ (ds ++ ws2) ∧ ws1 ≠ [] ∧
        (∀ c ∈ ws1, c.isWhitespace = true) ∧ ds ≠ [] ∧
        (∀ c ∈ ds, c.isDigit = true) ∧
        (∀ c ∈ ws2, c.isWhitespace = true) ∧ n = digitsToNat ds := by
  constructor
  · intro h
    simp only [restMatch] at h
    by_cases h1 : cs.takeWhile Char.isWhitespace = []
    · rw [if_pos h1] at h; exact absurd h (by simp)
    · rw [if_neg h1] at h
      by_cases h2 :
          (cs.dropWhile Char.isWhitespace).takeWhile Char.isDigit = []
      · rw [if_pos h2] at h; exact absurd h (by simp)
      · rw [if_neg h2] at h
        by_cases h3 : ((cs.dropWhile Char.isWhitespace).dropWhile
            Char.isDigit).all Char.isWhitespace = true
        · rw [if_pos h3] at h
          refine ⟨cs.takeWhile Char.isWhitespace,
            (cs.dropWhile Char.isWhitespace).takeWhile Char.isDigit,
            (cs.dropWhile Char.isWhitespace).dropWhile Char.isDigit,
            ?_, h1, ?_, h2, ?_, ?_, ?_⟩
          · rw [List.takeWhile_append_dropWhile,
              List.takeWhile_append_dropWhile]
          · intro c hc; exact List.mem_takeWhile_imp hc
          · intro c hc; exact List.mem_takeWhile_imp hc
          · intro c hc; exact (List.all_eq_true.mp h3) c hc
          · exact (Option.some_inj.mp h).symm
        · rw [if_neg h3] at h; exact absurd h (by simp)
  · rintro ⟨ws1, ds, ws2, hcs, hne1, hws1, hne2, hds, hws2, rfl⟩
    obtain ⟨d, ds', rfl⟩ : ∃ d ds', ds = d :: ds' := by
      cases ds with
      | nil => exact absurd rfl hne2
      | cons d ds' => exact ⟨d, ds', rfl⟩
    have hd : d.isDigit = true := hds d (List.mem_cons_self d ds')
    have htake : cs.takeWhile Char.isWhitespace = ws1 := by
      rw [hcs, takeWhile_all_append hws1, List.cons_append,
        List.takeWhile_cons_of_neg (by simp [digit_not_ws hd]),
        List.append_nil]
    have hdrop : cs.dropWhile Char.isWhitespace = (d :: ds') ++ ws2 := by
      rw [hcs, dropWhile_all_append hws1, List.cons_append,
        List.dropWhile_cons_of_neg (by simp [digit_not_ws hd])]
    have htake2 : ((d :: ds') ++ ws2).takeWhile Char.isDigit = d :: ds' := by
      rw [takeWhile_all_append hds,
        takeWhile_nil_of_all_neg (fun c hc => ws_not_digit (hws2 c hc)),
        List.append_nil]
    have hdrop2 : ((d :: ds') ++ ws2).dropWhile Char.isDigit = ws2 := by
      rw [dropWhile_all_append hds,
        dropWhile_id_of_all_neg (fun c hc => ws_not_digit (hws2 c hc))]
    simp only [restMatch, htake, hdrop, htake2, hdrop2]
    rw [if_neg hne1, if_neg (by simp), if_pos (List.all_eq_true.mpr hws2)]

/-- Characterization of one verb alternative. -/
theorem tryVerb_some_iff {v cs : List Char} {n : Nat} :
    tryVerb v cs = some n ↔
      ∃ rest, cs = v ++ rest ∧ restMatch rest = some n := by
  unfold tryVerb
  by_cases h : cs.take v.length = v
  · rw [if_pos h]
    constructor
    · intro hr
      refine ⟨cs.drop v.length, ?_, hr⟩
      have h2 := List.take_append_drop v.length cs
      rw [h] at h2
      exact h2.symm
    · rintro ⟨rest, rfl, hr⟩
      rw [List.drop_left]
      exact hr
  · rw [if_neg h]
    constructor
    · intro hr; exact absurd hr (by simp)
    · rintro ⟨rest, rfl, hr⟩
      exact absurd (List.take_left v rest) h

/-- The two completion verbs differ at their fourth character (final mem
`ם` against regular mem `מ`), so no input starts with both. -/
theorem verbs_exclusive {l1 l2 : List Char}
    (h : "סיים".toList ++ l1 = "סיימתי".toList ++ l2) : False := by
  have h' := h
  simp only [show "סיים".toList = ['ס', 'י', 'י', 'ם'] from rfl,
    show "סיימתי".toList = ['ס', 'י', 'י', 'מ', 'ת', 'י'] from rfl,
    List.cons_append, List.cons.injEq] at h'
  exact absurd h'.2.2.2.1 (by decide)

/-- C6 counterexample: the input `סיים 0` is recognized as a complete command
and yields 0 — but 0 is not a positive integer, so the claim that the
recognized inputs are exactly those matching
"<complete-verb> <positive integer>" fails at this input. -/
theorem C6_counterexample :
    parse_done_command "סיים 0" = some 0 ∧ ¬ 0 < 0 :=
  ⟨by decide, by decide⟩

/-- C6 amended: an input is recognized as a complete command exactly when it
is a complete verb from the fixed synonym set {סיים, סיימתי}, then at least
one whitespace character, then a nonempty decimal digit sequence (whose
value may be 0, e.g. for input `סיים 0`), then optional trailing whitespace;
the yielded value is the digit sequence's integer value, used as a display
number (not a storage id). -/
theorem C6_complete_command_amended (s : String) (n : Nat) :
    parse_done_command s = some n ↔
      ∃ v ws1 ds ws2 : List Char,
        (v = "סיים".toList ∨ v = "סיימתי".toList) ∧
        s.toList = v ++ (ws1 ++ (ds ++ ws2)) ∧
        ws1 ≠ [] ∧ (∀ c ∈ ws1, c.isWhitespace = true) ∧
        ds ≠ [] ∧ (∀ c ∈ ds, c.isDigit = true) ∧
        (∀ c ∈ ws2, c.isWhitespace = true) ∧
        n = digitsToNat ds := by
  cases h1 : tryVerb "סיים".toList s.toList with
  | some m =>
    have hp : parse_done_command s = some m := by
      unfold parse_done_command
      rw [h1]
    rw [hp]
    constructor
    · intro heq
      have hmn : m = n := by simpa using heq
      subst hmn
      obtain ⟨rest, hs, hr⟩ := tryVerb_some_iff.mp h1
      obtain ⟨ws1, ds, ws2, hrest, hne1, hws1, hne2, hds, hws2, hn⟩ :=
        restMatch_some_iff.mp hr
      exact ⟨"סיים".toList, ws1, ds, ws2, Or.inl rfl,
        by rw [hs, hrest], hne1, hws1, hne2, hds, hws2, hn⟩
    · rintro ⟨v, ws1, ds, ws2, hv, hs, hne1, hws1, hne2, hds, hws2, rfl⟩
      rcases hv with rfl | rfl
      · have : tryVerb "סיים".toList s.toList = some (digitsToNat ds) :=
          tryVerb_some_iff.mpr ⟨ws1 ++ (ds ++ ws2), hs,
            restMatch_some_iff.mpr
              ⟨ws1, ds, ws2, rfl, hne1, hws1, hne2, hds, hws2, rfl⟩⟩
        rw [h1] at this
        simpa using this
      · exfalso
        obtain ⟨rest1, hs1, hr1⟩ := tryVerb_some_iff.mp h1
        exact verbs_exclusive (hs1.symm.trans hs)
  | none =>
    have hp : parse_done_command s = tryVerb "סיימתי".toList s.toList := by
      unfold parse_done_command
      rw [h1]
    rw [hp]
    constructor
    · intro heq
      obtain ⟨rest, hs, hr⟩ := tryVerb_some_iff.mp heq
      obtain ⟨ws1, ds, ws2, hrest, hne1, hws1, hne2, hds, hws2, hn⟩ :=
        restMatch_some_iff.mp hr
      exact ⟨"סיימתי".toList, ws1, ds, ws2, Or.inr rfl,
        by rw [hs, hrest], hne1, hws1, hne2, hds, hws2, hn⟩
    · rintro ⟨v, ws1, ds, ws2, hv, hs, hne1, hws1, hne2, hds, hws2, rfl⟩
      rcases hv with rfl | rfl
      · have : tryVerb "סיים".toList s.toList = some (digitsToNat ds) :=
          tryVerb_some_iff.mpr ⟨ws1 ++ (ds ++ ws2), hs,
            restMatch_some_iff.mpr
              ⟨ws1, ds, ws2, rfl, hne1, hws1, hne2, hds, hws2, rfl⟩⟩
        rw [h1] at this
        exact absurd this (by simp)
      · exact tryVerb_some_iff.mpr ⟨ws1 ++ (ds ++ ws2), hs,
          restMatch_some_iff.mpr
            ⟨ws1, ds, ws2, rfl, hne1, hws1, hne2, hds, hws2, rfl⟩⟩

/-- Witness for the amended C6 at a concrete input. -/
theorem C6_complete_command_amended_witness :
    parse_done_command "סיים 12" = some 12 ↔
      ∃ v ws1 ds ws2 : List Char,
        (v = "סיים".toList ∨ v = "סיימתי".toList) ∧
        "סיים 12".toList = v ++ (ws1 ++ (ds ++ ws2)) ∧
        ws1 ≠ [] ∧ (∀ c ∈ ws1, c.isWhitespace = true) ∧
        ds ≠ [] ∧ (∀ c ∈ ds, c.isDigit = true) ∧
        (∀ c ∈ ws2, c.isWhitespace = true) ∧
        12 = digitsToNat ds :=
  C6_complete_command_amended "סיים 12" 12

end TodoBot
